import Mathlib

/-!
Verification of the presentation-explainer pipeline (upload service, worker
loop, slide extractor, explanation generator, status service) against its
natural-language specification.  The definitions below are a shallow
embedding of the Python sources: `server/main.py`, `explainer/explainer.py`,
`explainer/presentation/my_presentation.py`,
`explainer/presentation/my_slide.py`, `database/database.py`,
`client/client.py`, `utilities/status_utils.py`.  Timestamps are abstract
natural-number time units; the filesystem is an association list from path
to content; the external slide-deck parser is a black box modelled by an
`Option Deck` file content (`none` = the file cannot be opened or parsed).
-/

/-! ## String helpers

Python string operations re-implemented over `List Char` so that they
compute inside the kernel.  `splitOnChar` is Python's `str.split(sep)` for a
one-character separator, `lowerChar`/`strLower` is `str.lower()` restricted
to ASCII (all filenames and extensions in this system are ASCII),
`str_endswith` is `str.endswith`, and `str_contains` is Python's
`needle in hay` substring test. -/

def splitOnChar (sep : Char) : List Char → List (List Char)
  | [] => [[]]
  | c :: cs =>
    let r := splitOnChar sep cs
    if c = sep then [] :: r
    else
      match r with
      | [] => [[c]]
      | h :: t => (c :: h) :: t

def lowerChar (c : Char) : Char :=
  if 65 ≤ c.toNat ∧ c.toNat ≤ 90 then Char.ofNat (c.toNat + 32) else c

def strLower (s : String) : String :=
  String.mk (s.toList.map lowerChar)

def str_endswith (s suffix : String) : Bool :=
  List.isSuffixOf suffix.toList s.toList

def str_contains (hay needle : String) : Bool :=
  (List.range (hay.toList.length + 1)).any
    (fun i => needle.toList == (hay.toList.drop i).take needle.toList.length)

def isSpaceChar (c : Char) : Bool :=
  c == ' ' || c == '\t' || c == '\n' || c == '\r' || c == '\x0b' || c == '\x0c'

/-- Python's `str.strip()`: surrounding whitespace removed. -/
def str_strip (s : String) : String :=
  String.mk (((s.toList.dropWhile isSpaceChar).reverse.dropWhile isSpaceChar).reverse)

/-- Python's `os.path.join(a, b)` for a relative second component. -/
def path_join (a b : String) : String := a ++ "/" ++ b

/-- Python's `os.path.splitext(s)[1]`: the extension of `s` including the
dot, or `""` when `s` has no dot. -/
def splitext_ext (s : String) : String :=
  let parts := splitOnChar '.' s.toList
  if parts.length ≤ 1 then "" else "." ++ String.mk (parts.getLastD [])

/-! ## Constants

From `utilities/status_utils.py` (in the sources), and from
`utilities/dir_utils.py` / `utilities/file_utils.py`, which are referenced
by the sources but not present in the repository snapshot: those are
modelled from the spec. -/

/-- STATUS_VALUES from `utilities/status_utils.py`: `pending`. -/
def STATUS_pending : String := "pending"

/-- STATUS_VALUES from `utilities/status_utils.py`: `done`. -/
def STATUS_done : String := "done"

/-- STATUS_VALUES from `utilities/status_utils.py`: `not found`. -/
def STATUS_not_found : String := "not found"

/-- Modelled from the spec: `dir_utils.UPLOAD_FOLDER` (the missing
`utilities/dir_utils.py`), the "filesystem directory of uploaded source
files". The concrete directory name is irrelevant; it is the same constant
on the upload side and the worker side. -/
def UPLOAD_FOLDER : String := "uploads"

/-- Modelled from the spec: `dir_utils.OUTPUT_FOLDER` (the missing
`utilities/dir_utils.py`), the "filesystem directory of result documents". -/
def OUTPUT_FOLDER : String := "outputs"

/-- Modelled from the spec: `file_utils.PRESENTATION_FILE_EXTENSION` (the
missing `utilities/file_utils.py`), the "expected presentation-file
extension"; the client checks `.endswith(".pptx")` and the repository's
tests upload `.pptx` files. -/
def PRESENTATION_FILE_EXTENSION : String := ".pptx"

/-- Modelled from the spec: `file_utils.OUTPUT_FILE_EXTENSION` (the missing
`utilities/file_utils.py`); result documents are "named `<uid>.json`". -/
def OUTPUT_FILE_EXTENSION : String := ".json"

/-! ## Slide decks and the Slide Extractor

`explainer/presentation/my_presentation.py`.  The external `pptx` library
is a black box: a deck is a list of slides, a slide a list of shapes, a
shape either has no text frame (`none`) or carries its paragraphs, each
paragraph a list of run texts. -/

abbrev Paragraph : Type := List String

abbrev Shape : Type := Option (List Paragraph)

abbrev Slide : Type := List Shape

abbrev Deck : Type := List Slide

/-- Text extraction for one slide, the comprehension in
`my_presentation.py` lines 40-47: over shapes with a text frame, their
paragraphs, their runs, keep `run.text.strip()` whenever it is non-empty. -/
def slideTexts (s : Slide) : List String :=
  s.flatMap (fun shape =>
    match shape with
    | none => []
    | some paragraphs =>
      paragraphs.flatMap (fun runs =>
        (runs.filter (fun r => str_strip r != "")).map str_strip))

/-- Loop of `MyPresentation.parse` (`my_presentation.py` lines 36-54):
slides enumerated from `n` (the source starts at 1), a slide with no text
is skipped, the rest are recorded as `(slide_number, texts)` in order. -/
def parseFrom : Nat → Deck → List (Nat × List String)
  | _, [] => []
  | n, s :: rest =>
    if slideTexts s = [] then parseFrom (n + 1) rest
    else (n, slideTexts s) :: parseFrom (n + 1) rest

/-- `MyPresentation.parse` (`my_presentation.py` lines 24-54): when the file
cannot be opened or parsed (`Presentation(...)` raises), the exception is
caught, the method returns, and the slides mapping stays empty; otherwise
the slides are extracted in order starting at number 1. -/
def MyPresentation_parse (content : Option Deck) : List (Nat × List String) :=
  match content with
  | none => []
  | some d => parseFrom 1 d

/-! ## Data model

`database/database.py`: the `users` and `uploads` tables. -/

structure DBUser where
  id : Nat
  email : String
deriving DecidableEq, Repr

structure Upload where
  uid : String
  filename : String
  upload_time : Nat
  finish_time : Option Nat
  status : String
  user_id : Option Nat
deriving DecidableEq, Repr

structure DB where
  users : List DBUser
  uploads : List Upload
deriving DecidableEq, Repr

/-- Module initialization of `database/database.py` lines 50-54: on import
(hence on every Upload Service or Worker Loop startup)
`Base.metadata.drop_all(engine)` drops the existing tables and
`create_all` recreates them empty. -/
def database_module_init (_db : DB) : DB := ⟨[], []⟩

/-! ## Upload Service

`server/main.py`. -/

/-- `generate_filename` (`main.py` line 30):
`uid + '.' + original_filename.split('.')[FILE_FORMAT_INDEX]`.
`file_utils.FILE_FORMAT_INDEX` lives in the missing
`utilities/file_utils.py` and is modelled from the spec: stored files are
"named `<uid>.<ext>`", so the selected component is the extension, the last
dot-separated part of the original filename. -/
def generate_filename (uid original_filename : String) : String :=
  uid ++ "." ++ String.mk ((splitOnChar '.' original_filename.toList).getLastD [])

/-- Path under which `save_file` (`main.py` lines 33-41) stores the
uploaded content: `os.path.join(UPLOAD_FOLDER, generate_filename(uid, original))`. -/
def stored_file_path (uid original_filename : String) : String :=
  path_join UPLOAD_FOLDER (generate_filename uid original_filename)

/-- `create_user` (`main.py` lines 75-89): first user with this email, or a
freshly inserted one (autoincrement primary key modelled as list length + 1). -/
def create_user (db : DB) (email : String) : DB × DBUser :=
  match db.users.find? (fun u => u.email == email) with
  | some u => (db, u)
  | none =>
    let u : DBUser := ⟨db.users.length + 1, email⟩
    ({ db with users := db.users ++ [u] }, u)

/-- Content of a file as seen by the external presentation parser:
`none` means the parser cannot open/parse it. -/
abbrev FileContent : Type := Option Deck

/-- Uploaded-files directory: association list path ↦ content. -/
abbrev UploadFS : Type := List (String × FileContent)

structure UploadResult where
  db : DB
  fs : UploadFS
  uid : Option String
deriving Repr

/-- `upload` endpoint (`main.py` lines 111-147): with no attached file the
request is rejected (400, no uid, nothing persisted); otherwise a fresh
`uid` (supplied here as a parameter) names the stored copy of the file, the
user is resolved/created when an email is given, and an Upload row is
inserted with the original filename, `status = pending`, `upload_time = now`
and no finish time.  Note the endpoint performs no extension check. -/
def upload_endpoint (db : DB) (fs : UploadFS)
    (file : Option (String × FileContent)) (email : Option String)
    (uid : String) (now : Nat) : UploadResult :=
  match file with
  | none => ⟨db, fs, none⟩
  | some (original_filename, content) =>
    let filename := generate_filename uid original_filename
    let fs' := fs ++ [(path_join UPLOAD_FOLDER filename, content)]
    let (db1, user?) :=
      match email with
      | none => (db, none)
      | some e =>
        let (db', u) := create_user db e
        (db', some u)
    let row : Upload :=
      ⟨uid, original_filename, now, none, STATUS_pending, user?.map (·.id)⟩
    ⟨{ db1 with uploads := db1.uploads ++ [row] }, fs', some uid⟩

/-! ## Client

`client/client.py`. -/

/-- `is_valid_filepath` (`client.py` lines 33-34):
`not (file_path is None or not file_path.endswith(".pptx"))`. -/
def is_valid_filepath (file_path : Option String) : Bool :=
  match file_path with
  | none => false
  | some p => str_endswith p ".pptx"

/-- `SystemClient.upload` (`client.py` lines 74-92): an invalid file path
(missing, or without the `.pptx` extension) is rejected locally - no
request is sent, nothing is persisted, `None` is returned; otherwise the
file is posted to the `upload` endpoint (the transmitted filename is the
given path, its content abstracted by `contentOf`). -/
def client_upload (db : DB) (fs : UploadFS) (file_path : Option String)
    (contentOf : String → FileContent) (email : Option String)
    (uid : String) (now : Nat) : UploadResult :=
  if is_valid_filepath file_path then
    match file_path with
    | none => ⟨db, fs, none⟩
    | some p => upload_endpoint db fs (some (p, contentOf p)) email uid now
  else ⟨db, fs, none⟩

/-! ## Result documents

`json.dump` output.  The worker serializes a list of `Explanations`
namedtuples; Python's `json` module encodes a tuple (named or not) as a
JSON array, so each entry becomes the two-element array
`[slide_number, explanation]`. -/

inductive Json where
  | str : String → Json
  | num : Nat → Json
  | arr : List Json → Json
  | obj : List (String × Json) → Json

/-- Serialization of `presentation.explanations` performed by `json.dump`
in `process_upload_file` (`explainer.py` lines 73-74): a JSON array whose
entries are the namedtuples `(slide_number, explanation)`, each encoded by
Python's `json` module as a two-element JSON array. -/
def dumpExplanations (es : List (Nat × String)) : Json :=
  Json.arr (es.map (fun p => Json.arr [Json.num p.1, Json.str p.2]))

/-! ## Worker Loop

`explainer/explainer.py`.  The per-slide explanation result is abstracted
by a function `explain : Nat → List String → String` (its internal
behaviour, `MySlide.generate_explanation`, is modelled separately below). -/

/-- Output directory: association list from file name (within
`OUTPUT_FOLDER`) to the parsed JSON content of that file. -/
abbrev OutputFS : Type := List (String × Json)

/-- Lookup in the uploaded-files directory (`os.path.isfile` + reading). -/
def fs_lookup (fs : UploadFS) (path : String) : Option FileContent :=
  (fs.find? (fun p => p.1 == path)).map Prod.snd

/-- Path the worker reads for a job, `explainer.py` line 109:
`os.path.join(dir_utils.UPLOAD_FOLDER, upload.filename)` - note it joins
the job's **original filename**, the `filename` column of the row. -/
def worker_file_path (up : Upload) : String :=
  path_join UPLOAD_FOLDER up.filename

/-- Body of `main` (`explainer.py` lines 22-50): parse the presentation,
then await one explanation per extracted slide, appending the
`(slide_number, explanation)` entries in the iteration order of the slides
mapping (insertion order, i.e. increasing slide number). -/
def explainer_main (content : FileContent)
    (explain : Nat → List String → String) : List (Nat × String) :=
  (MyPresentation_parse content).map (fun p => (p.1, explain p.1 p.2))

/-- `process_upload_file` (`explainer.py` lines 53-78): if the file at
`worker_file_path` exists and the original filename's extension (lowered)
is the presentation extension, run `main` and write the serialized
explanations to `<uid>.json` in the output folder, returning the output
path; otherwise (missing file, wrong extension, or an exception escaping
`main`) return `None` and write nothing.  A parse failure inside
`MyPresentation.parse` is caught there and does **not** reach the
`except` branch here. -/
def process_upload_file (up : Upload) (fs : UploadFS) (outDir : OutputFS)
    (explain : Nat → List String → String) : Option String × OutputFS :=
  let file_path := worker_file_path up
  match fs_lookup fs file_path with
  | none => (none, outDir)
  | some content =>
    if strLower (splitext_ext up.filename) = PRESENTATION_FILE_EXTENSION then
      let es := explainer_main content explain
      let out_name := up.uid ++ OUTPUT_FILE_EXTENSION
      (some (path_join OUTPUT_FOLDER out_name),
        outDir ++ [(out_name, dumpExplanations es)])
    else (none, outDir)

/-- `update_upload_status` (`explainer.py` lines 81-91): set the job's
status to `done` and its finish time to `now`, and commit. -/
def update_upload_status (db : DB) (uid : String) (now : Nat) : DB :=
  { db with
    uploads := db.uploads.map (fun u =>
      if u.uid == uid then { u with status := STATUS_done, finish_time := some now }
      else u) }

/-- One iteration of the worker loop body for one pending job
(`explainer.py` lines 108-114): process the file; only when an output path
was returned, mark the job done. -/
def worker_process_upload (db : DB) (fs : UploadFS) (outDir : OutputFS)
    (up : Upload) (explain : Nat → List String → String) (now : Nat) :
    DB × OutputFS :=
  match process_upload_file up fs outDir explain with
  | (none, outDir') => (db, outDir')
  | (some _, outDir') => (update_upload_status db up.uid now, outDir')

/-! ## Explanation Generator

`explainer/presentation/my_slide.py`.  The external OpenAI API is a black
box modelled by the sequence of outcomes its successive calls produce. -/

inductive ApiOutcome where
  | success (choices : List String)
  | rateLimit
  | authError
  | timeout
  | apiError

/-- Extraction of the reply from a successful response (`my_slide.py` line
72): `response.choices[0].text.strip() if response and response.choices
else ""`. -/
def replyOf (choices : List String) : String :=
  match choices with
  | [] => ""
  | t :: _ => str_strip t

/-- `MySlide.generate_explanation` (`my_slide.py` lines 35-74) as a function
of the finite prefix of API-call outcomes observed: a successful response
ends the loop with the extracted reply; `AuthenticationError`,
`asyncio.TimeoutError` and any other exception return `""` immediately; a
`RateLimitError` sleeps 60 seconds and retries with the remaining
outcomes.  The second component accumulates the total time slept; `none`
means every provided outcome was a rate limit and the loop is still
running. -/
def generate_explanation : List ApiOutcome → Option (String × Nat)
  | [] => none
  | ApiOutcome.success cs :: _ => some (replyOf cs, 0)
  | ApiOutcome.authError :: _ => some ("", 0)
  | ApiOutcome.timeout :: _ => some ("", 0)
  | ApiOutcome.apiError :: _ => some ("", 0)
  | ApiOutcome.rateLimit :: rest =>
    (generate_explanation rest).map (fun r => (r.1, r.2 + 60))

/-! ## Status Service

`server/main.py` lines 150-244. -/

/-- `find_files` (`main.py` lines 44-57): the files whose name contains the
uid as a substring. -/
def find_files (files : List String) (uid : String) : List String :=
  files.filter (fun file => str_contains file uid)

/-- Response dictionary shape of `prepare_response`; `status = none` models
Python's `None`, `finish_time = none` models the key being absent. -/
structure StatusResp where
  status : Option String
  filename : String
  timestamp : Nat
  explanation : Json

structure StatusRespFull where
  base : StatusResp
  finish_time : Option Nat

/-- `prepare_response` (`main.py` lines 150-185): defaults, then - when an
upload is given - its status, filename and timestamp; when the status is
`done`, the first output-directory file containing the uid is read as the
explanation (an absent file leaves the explanation `''`); the
`finish_time` key is added only when the upload has a finish time. -/
def prepare_response (up? : Option Upload) (outDir : OutputFS) (now : Nat) :
    StatusRespFull :=
  match up? with
  | none => ⟨⟨none, "", now, Json.str ""⟩, none⟩
  | some up =>
    let explanation :=
      if up.status = STATUS_done then
        match find_files (outDir.map Prod.fst) up.uid with
        | [] => Json.str ""
        | f :: _ => ((outDir.find? (fun p => p.1 == f)).map Prod.snd).getD (Json.str "")
      else Json.str ""
    ⟨⟨some up.status, up.filename, up.upload_time, explanation⟩, up.finish_time⟩

/-- `status` endpoint (`main.py` lines 188-214): unknown uid answers a bare
`not found` status, otherwise `prepare_response` on the first row with this
uid. -/
def status_endpoint (db : DB) (outDir : OutputFS) (uid : String) (now : Nat) :
    StatusRespFull :=
  match db.uploads.find? (fun u => u.uid == uid) with
  | none => ⟨⟨some STATUS_not_found, "", now, Json.str ""⟩, none⟩
  | some up => prepare_response (some up) outDir now

/-- Model of `order_by(desc(Upload.upload_time)).first()` (`main.py` line
239): a row of maximal `upload_time` among the filtered rows (the first
such row in table order), `none` on an empty filter result. -/
def max_by_upload_time : List Upload → Option Upload
  | [] => none
  | u :: rest =>
    match max_by_upload_time rest with
    | none => some u
    | some v => some (if v.upload_time > u.upload_time then v else u)

/-- Row filter of `get_latest_upload` (`main.py` line 239):
`filter_by(user=user, filename=filename)`. -/
def matching_uploads (db : DB) (user : DBUser) (filename : String) : List Upload :=
  db.uploads.filter (fun u => u.user_id == some user.id && u.filename == filename)

/-- `get_latest_upload` endpoint (`main.py` lines 217-244): resolve the
user by email (`not found` when absent), then the matching row with the
latest `upload_time` (`not found` when none), then `prepare_response`. -/
def get_latest_upload (db : DB) (outDir : OutputFS)
    (filename email : String) (now : Nat) : StatusRespFull :=
  match db.users.find? (fun v => v.email == email) with
  | none => ⟨⟨some STATUS_not_found, "", now, Json.str ""⟩, none⟩
  | some user =>
    match max_by_upload_time (matching_uploads db user filename) with
    | none => ⟨⟨some STATUS_not_found, "", now, Json.str ""⟩, none⟩
    | some latest => prepare_response (some latest) outDir now

/-! ## Job lifecycle events

Transition system for the Job Store: the two operations that write the
`uploads` table are the upload endpoint's row insert (`main.py` line 105:
fresh uid, `status='pending'`, `upload_time=now`, no finish time) and the
worker's `update_upload_status`, which the loop applies only to rows it
just fetched with `status='pending'` (`explainer.py` lines 100-112).
Event times are the successive `datetime.now()` readings, assumed
monotone. -/

inductive JobEvent where
  | create (uid filename : String) (user_id : Option Nat) (t : Nat)
  | finish (uid : String) (t : Nat)
deriving DecidableEq, Repr

def JobEvent.time : JobEvent → Nat
  | .create _ _ _ t => t
  | .finish _ t => t

/-- Effect of `update_upload_status` on one row, guarded by the worker
loop's `filter_by(status='pending')` fetch. -/
def finishRow (uid : String) (t : Nat) (u : Upload) : Upload :=
  if u.uid == uid && u.status == STATUS_pending then
    { u with status := STATUS_done, finish_time := some t }
  else u

def applyEvent (db : DB) : JobEvent → DB
  | .create uid fn user t =>
    { db with uploads := db.uploads ++ [⟨uid, fn, t, none, STATUS_pending, user⟩] }
  | .finish uid t =>
    { db with uploads := db.uploads.map (finishRow uid t) }

def runEvents (db : DB) : List JobEvent → DB
  | [] => db
  | e :: es => runEvents (applyEvent db e) es

/-- Clock monotonicity: event times are nondecreasing and bounded below by
`t0`. -/
def TimeBounded : Nat → List JobEvent → Bool
  | _, [] => true
  | t0, e :: es => t0 ≤ e.time && TimeBounded e.time es

/-! ## Theorems -/

/-- Deck with one slide bearing one text run, used in concrete scenarios. -/
def oneSlideDeck : Deck := [[some [["hi"]]]]

/-- Result of uploading `deck.pptx` (content `oneSlideDeck`) with uid `u1`
at time 0 into an empty system. -/
def c1_res : UploadResult :=
  upload_endpoint ⟨[], []⟩ [] (some ("deck.pptx", some oneSlideDeck)) none "u1" 0

/-- Job row that upload creates in the scenario above. -/
def c1_job : Upload := ⟨"u1", "deck.pptx", 0, none, "pending", none⟩

/-- C1: the claim fails on the code.  The Upload Service stores the file
under the identifier-derived name `uploads/u1.pptx`, but the Worker Loop
reads `os.path.join(UPLOAD_FOLDER, upload.filename)` - the **original**
filename recorded on the job row - i.e. `uploads/deck.pptx`.  The two
paths differ, and consequently the worker's file lookup misses and the job
is left untouched (still `pending`). -/
theorem C1_worker_reads_wrong_path :
    c1_res.fs.map Prod.fst = [stored_file_path "u1" "deck.pptx"]
    ∧ stored_file_path "u1" "deck.pptx" = "uploads/u1.pptx"
    ∧ c1_res.db.uploads = [c1_job]
    ∧ worker_file_path c1_job = "uploads/deck.pptx"
    ∧ worker_file_path c1_job ≠ stored_file_path "u1" "deck.pptx"
    ∧ (worker_process_upload c1_res.db c1_res.fs [] c1_job (fun _ _ => "") 5).1.uploads
        = [c1_job] := by
  refine ⟨rfl, rfl, rfl, rfl, by decide, rfl⟩

/-- C2, counterexample: module initialization of `database/database.py`
(run on every core-service startup, since both the Upload Service and the
Worker Loop import the module) drops all tables, so a Job row present
before is absent afterwards. -/
theorem C2_counterexample :
    c1_job ∈ (DB.mk [] [c1_job]).uploads
    ∧ c1_job ∉ (database_module_init (DB.mk [] [c1_job])).uploads := by
  decide

/-- C2, amended: every core operation other than service startup preserves
Job and User rows.  The upload endpoint only appends rows; the worker's
status update rewrites a row in place (same uid) and removes none; job
lifecycle events (row insert, worker finish) likewise; the Status Service
is read-only by construction (its embedding maps the store to a response). -/
theorem C2_no_deletion_outside_startup :
    (∀ (db : DB) (e : JobEvent) (u : Upload), u ∈ db.uploads →
      ∃ u' ∈ (applyEvent db e).uploads, u'.uid = u.uid)
    ∧ (∀ (db : DB) (fs : UploadFS) (file : Option (String × FileContent))
        (email : Option String) (uid : String) (now : Nat) (u : Upload),
        u ∈ db.uploads → u ∈ (upload_endpoint db fs file email uid now).db.uploads)
    ∧ (∀ (db : DB) (fs : UploadFS) (file : Option (String × FileContent))
        (email : Option String) (uid : String) (now : Nat) (v : DBUser),
        v ∈ db.users → v ∈ (upload_endpoint db fs file email uid now).db.users)
    ∧ (∀ (db : DB) (uid : String) (now : Nat) (u : Upload), u ∈ db.uploads →
        ∃ u' ∈ (update_upload_status db uid now).uploads, u'.uid = u.uid) := by
  refine ⟨?_, ?_, ?_, ?_⟩
  · intro db e u hu
    cases e with
    | create uid fn user t =>
      exact ⟨u, by simpa [applyEvent] using Or.inl hu, rfl⟩
    | finish uid t =>
      refine ⟨finishRow uid t u, ?_, ?_⟩
      · simpa [applyEvent] using List.mem_map_of_mem (finishRow uid t) hu
      · unfold finishRow
        split <;> rfl
  · intro db fs file email uid now u hu
    cases file with
    | none => simpa [upload_endpoint] using hu
    | some f =>
      cases email with
      | none => simp [upload_endpoint]; exact Or.inl hu
      | some e =>
        simp only [upload_endpoint, create_user]
        cases hfind : db.users.find? (fun v => v.email == e) <;>
          simp [List.mem_append]  <;> exact Or.inl hu
  · intro db fs file email uid now v hv
    cases file with
    | none => simpa [upload_endpoint] using hv
    | some f =>
      cases email with
      | none => simpa [upload_endpoint] using hv
      | some e =>
        cases hfind : db.users.find? (fun w => w.email == e) with
        | none =>
          simp [upload_endpoint, create_user, hfind, List.mem_append]
          exact Or.inl hv
        | some u =>
          simp [upload_endpoint, create_user, hfind]
          exact hv
  · intro db uid now u hu
    refine ⟨if u.uid == uid then { u with status := STATUS_done, finish_time := some now } else u, ?_, ?_⟩
    · simpa [update_upload_status] using
        List.mem_map_of_mem (fun w =>
          if w.uid == uid then { w with status := STATUS_done, finish_time := some now } else w) hu
    · split <;> rfl

/-- C2, witness for the amended theorem at a concrete store and event. -/
theorem C2_no_deletion_witness :
    ∃ u' ∈ (applyEvent (DB.mk [] [c1_job]) (JobEvent.finish "u1" 5)).uploads,
      u'.uid = c1_job.uid := by
  exact C2_no_deletion_outside_startup.1 (DB.mk [] [c1_job])
    (JobEvent.finish "u1" 5) c1_job (by decide)

/-- Store with one pending job whose stored file exists but cannot be
opened or parsed as a presentation. -/
def c3_fs : UploadFS := [("uploads/deck.pptx", none)]

/-- C3: the claim is right and the code is wrong.  `MyPresentation.parse`
swallows the open/parse failure (it prints and returns), so `main` sees an
empty slides mapping, `process_upload_file` writes an empty JSON array to
`u1.json` and returns the output path, and the worker marks the job
`done` - exactly the "zero slides processed successfully" treatment the
spec forbids, and the job does not remain `pending`. -/
theorem C3_parse_failure_marked_done :
    MyPresentation_parse none = []
    ∧ (worker_process_upload ⟨[], [c1_job]⟩ c3_fs [] c1_job (fun _ _ => "") 5).1.uploads
        = [⟨"u1", "deck.pptx", 0, some 5, "done", none⟩]
    ∧ (worker_process_upload ⟨[], [c1_job]⟩ c3_fs [] c1_job (fun _ _ => "") 5).2
        = [("u1.json", Json.arr [])] := by
  refine ⟨rfl, by decide, rfl⟩

/-- Follows the spec's words (refinement side): a result document that is
"a JSON array of `slide_number`/`explanation` objects" - a JSON array each
of whose entries is a JSON object with exactly the fields `slide_number`
(a number) and `explanation` (a string). -/
def isExplanationObject : Json → Bool
  | Json.obj [(k1, Json.num _), (k2, Json.str _)] =>
    k1 == "slide_number" && k2 == "explanation"
  | _ => false

/-- Follows the spec's words (refinement side): the persisted result
document format claimed by the spec. -/
def spec_resultDocIsArrayOfObjects : Json → Bool
  | Json.arr l => l.all isExplanationObject
  | _ => false

/-- C5, counterexample: processing a one-slide deck persists
`u1.json` containing `[[1, "explained"]]` - a JSON array of two-element
**arrays** (Python's `json` serializes the `Explanations` namedtuples as
arrays), not of `slide_number`/`explanation` objects. -/
theorem C5_counterexample :
    (worker_process_upload ⟨[], [c1_job]⟩
        [("uploads/deck.pptx", some oneSlideDeck)] [] c1_job (fun _ _ => "explained") 5).2
      = [("u1.json", Json.arr [Json.arr [Json.num 1, Json.str "explained"]])]
    ∧ spec_resultDocIsArrayOfObjects
        (Json.arr [Json.arr [Json.num 1, Json.str "explained"]]) = false := by
  exact ⟨rfl, rfl⟩

/-- Spec-side count of the slides of a deck carrying no non-empty text run
(the `K` of the claim). -/
def countNoText : Deck → Nat
  | [] => 0
  | s :: rest => (if slideTexts s = [] then 1 else 0) + countNoText rest

theorem parseFrom_length_add : ∀ (d : Deck) (n : Nat),
    (parseFrom n d).length + countNoText d = d.length := by
  intro d
  induction d with
  | nil => intro n; simp [parseFrom, countNoText]
  | cons s rest ih =>
    intro n
    have := ih (n + 1)
    by_cases h : slideTexts s = []
    · simp only [parseFrom, countNoText, if_pos h, List.length_cons]
      omega
    · simp only [parseFrom, countNoText, if_neg h, List.length_cons]
      omega

theorem parseFrom_mem : ∀ (d : Deck) (n : Nat) (p : Nat × List String),
    p ∈ parseFrom n d →
    ∃ i, i < d.length ∧ p.1 = n + i ∧ p.2 = slideTexts (d.getD i []) ∧ p.2 ≠ [] := by
  intro d
  induction d with
  | nil => intro n p hp; simp [parseFrom] at hp
  | cons s rest ih =>
    intro n p hp
    by_cases h : slideTexts s = []
    · simp only [parseFrom, if_pos h] at hp
      obtain ⟨i, hi, h1, h2, h3⟩ := ih (n + 1) p hp
      exact ⟨i + 1, by simpa using hi, by omega, by simpa using h2, h3⟩
    · simp only [parseFrom, if_neg h] at hp
      cases hp with
      | head => exact ⟨0, by simp, by simp, by simp, h⟩
      | tail _ hp' =>
        obtain ⟨i, hi, h1, h2, h3⟩ := ih (n + 1) p hp'
        exact ⟨i + 1, by simpa using hi, by omega, by simpa using h2, h3⟩

theorem parseFrom_mem_of : ∀ (d : Deck) (n i : Nat), i < d.length →
    slideTexts (d.getD i []) ≠ [] →
    (n + i, slideTexts (d.getD i [])) ∈ parseFrom n d := by
  intro d
  induction d with
  | nil => intro n i hi _; simp at hi
  | cons s rest ih =>
    intro n i hi hne
    cases i with
    | zero =>
      simp only [List.getD_cons_zero] at hne ⊢
      simp only [parseFrom, if_neg hne]
      exact List.mem_cons_self _ _
    | succ j =>
      simp only [List.getD_cons_succ] at hne ⊢
      have harith : n + (j + 1) = (n + 1) + j := by omega
      rw [harith]
      have hmem := ih (n + 1) j (by simpa using hi) hne
      by_cases h : slideTexts s = []
      · simpa only [parseFrom, if_pos h] using hmem
      · simp only [parseFrom, if_neg h]
        exact List.mem_cons_of_mem _ hmem

theorem parseFrom_fst_lb (d : Deck) (n : Nat) (p : Nat × List String)
    (hp : p ∈ parseFrom n d) : n ≤ p.1 := by
  obtain ⟨i, _, h1, _, _⟩ := parseFrom_mem d n p hp
  omega

theorem parseFrom_pairwise : ∀ (d : Deck) (n : Nat),
    ((parseFrom n d).map Prod.fst).Pairwise (· < ·) := by
  intro d
  induction d with
  | nil => intro n; simp [parseFrom]
  | cons s rest ih =>
    intro n
    by_cases h : slideTexts s = []
    · simpa only [parseFrom, if_pos h] using ih (n + 1)
    · simp only [parseFrom, if_neg h, List.map_cons]
      refine List.Pairwise.cons ?_ (ih (n + 1))
      intro m hm
      simp only [List.mem_map] at hm
      obtain ⟨p, hp, rfl⟩ := hm
      have := parseFrom_fst_lb rest (n + 1) p hp
      omega

/-- C7: on a deck of `N` slides of which `countNoText` have no non-empty
text run, the Slide Extractor yields exactly `N - countNoText` entries;
their slide numbers are strictly increasing; every entry is numbered by
its slide's original position (starting at 1) and carries exactly that
slide's extracted texts (`slideTexts`: trimmed run texts in
shape/paragraph/run order, empties dropped), which are non-empty; and
conversely every text-bearing slide contributes its entry. -/
theorem C7_slide_extractor (d : Deck) :
    (MyPresentation_parse (some d)).length = d.length - countNoText d
    ∧ ((MyPresentation_parse (some d)).map Prod.fst).Pairwise (· < ·)
    ∧ (∀ p ∈ MyPresentation_parse (some d),
        ∃ i, i < d.length ∧ p.1 = i + 1 ∧ p.2 = slideTexts (d.getD i []) ∧ p.2 ≠ [])
    ∧ (∀ i, i < d.length → slideTexts (d.getD i []) ≠ [] →
        (i + 1, slideTexts (d.getD i [])) ∈ MyPresentation_parse (some d)) := by
  refine ⟨?_, parseFrom_pairwise d 1, ?_, ?_⟩
  · have := parseFrom_length_add d 1
    show (parseFrom 1 d).length = d.length - countNoText d
    omega
  · intro p hp
    obtain ⟨i, hi, h1, h2, h3⟩ := parseFrom_mem d 1 p hp
    exact ⟨i, hi, by omega, h2, h3⟩
  · intro i hi hne
    have := parseFrom_mem_of d 1 i hi hne
    have harith : 1 + i = i + 1 := by omega
    rw [harith] at this
    exact this

/-- C7, witness: a two-slide deck whose first slide has no text yields the
single entry numbered 2. -/
theorem C7_witness :
    ((2 : Nat), ["hi"]) ∈ MyPresentation_parse (some [[(none : Shape)], [some [["hi"]]]]) := by
  have h := (C7_slide_extractor [[(none : Shape)], [some [["hi"]]]]).2.2.2 1
    (by decide) (by decide)
  exact h

/-- C5, amended: the result document persisted for a processed job is the
file `<uid>.json` holding a JSON array of two-element
`[slide_number, explanation]` **arrays** (Python's `json` serializes the
`Explanations` namedtuples as arrays, not objects), one per extracted
slide, in the deck's slide order with strictly increasing slide numbers,
independent of the per-slide explanation function. -/
theorem C5_result_document (d : Deck) (explain : Nat → List String → String) :
    dumpExplanations (explainer_main (some d) explain)
      = Json.arr ((MyPresentation_parse (some d)).map
          (fun p => Json.arr [Json.num p.1, Json.str (explain p.1 p.2)]))
    ∧ ((explainer_main (some d) explain).map Prod.fst).Pairwise (· < ·)
    ∧ (explainer_main (some d) explain).map Prod.fst
        = (MyPresentation_parse (some d)).map Prod.fst
    ∧ ∀ (db : DB) (fs : UploadFS) (outDir : OutputFS) (up : Upload)
        (now : Nat) (c : Deck),
        fs_lookup fs (worker_file_path up) = some (some c) →
        strLower (splitext_ext up.filename) = PRESENTATION_FILE_EXTENSION →
        (worker_process_upload db fs outDir up explain now).2
          = outDir ++ [(up.uid ++ OUTPUT_FILE_EXTENSION,
              dumpExplanations (explainer_main (some c) explain))] := by
  refine ⟨?_, ?_, ?_, ?_⟩
  · simp [dumpExplanations, explainer_main, List.map_map]
  · have h : (explainer_main (some d) explain).map Prod.fst
        = (MyPresentation_parse (some d)).map Prod.fst := by
      simp [explainer_main, List.map_map]
    rw [h]
    exact parseFrom_pairwise d 1
  · simp [explainer_main, List.map_map]
  · intro db fs outDir up now c h1 h2
    simp [worker_process_upload, process_upload_file, h1, h2]

/-- C5, witness: the concrete one-slide scenario, through the worker. -/
theorem C5_witness :
    (worker_process_upload ⟨[], [c1_job]⟩ [("uploads/deck.pptx", some oneSlideDeck)] []
        c1_job (fun _ _ => "e") 5).2
      = [] ++ [(c1_job.uid ++ OUTPUT_FILE_EXTENSION,
          dumpExplanations (explainer_main (some oneSlideDeck) (fun _ _ => "e")))] := by
  exact (C5_result_document oneSlideDeck (fun _ _ => "e")).2.2.2 ⟨[], [c1_job]⟩
    [("uploads/deck.pptx", some oneSlideDeck)] [] c1_job 5 oneSlideDeck rfl rfl

/-- C4: the upload operation (client entry point + server endpoint) rejects
and persists nothing when no file path is supplied or when the filename
lacks the presentation extension: the client's `is_valid_filepath` guard
returns `None` without sending a request, so no Job row is created and no
uid is returned; and the server endpoint itself rejects a request with no
attached file without creating a row or returning a uid.  (The extension
check lives only in the client: the endpoint alone performs none.) -/
theorem C4_upload_rejections (db : DB) (fs : UploadFS)
    (contentOf : String → FileContent) (email : Option String)
    (uid : String) (now : Nat) (fp : Option String)
    (h : fp = none ∨ ∃ p, fp = some p ∧ str_endswith p ".pptx" = false) :
    (client_upload db fs fp contentOf email uid now).uid = none
    ∧ (client_upload db fs fp contentOf email uid now).db = db
    ∧ (client_upload db fs fp contentOf email uid now).fs = fs
    ∧ upload_endpoint db fs none email uid now = ⟨db, fs, none⟩ := by
  have hval : is_valid_filepath fp = false := by
    rcases h with h | ⟨p, hp, hext⟩
    · subst h; rfl
    · subst hp; simpa [is_valid_filepath] using hext
  refine ⟨?_, ?_, ?_, rfl⟩ <;> simp [client_upload, hval]

/-- C4, witness: uploading `notes.txt` is rejected with no uid and no new
Job row. -/
theorem C4_witness :
    (client_upload ⟨[], []⟩ [] (some "notes.txt") (fun _ => none) none "u9" 0).uid = none
    ∧ (client_upload ⟨[], []⟩ [] (some "notes.txt") (fun _ => none) none "u9" 0).db
        = (⟨[], []⟩ : DB)
    ∧ (client_upload ⟨[], []⟩ [] (some "notes.txt") (fun _ => none) none "u9" 0).fs
        = ([] : UploadFS)
    ∧ upload_endpoint ⟨[], []⟩ [] none none "u9" 0 = ⟨⟨[], []⟩, [], none⟩ := by
  exact C4_upload_rejections ⟨[], []⟩ [] (fun _ => none) none "u9" 0 (some "notes.txt")
    (Or.inr ⟨"notes.txt", rfl, by decide⟩)

theorem gen_rateLimit_leading (n : Nat) (l : List ApiOutcome) :
    generate_explanation (List.replicate n ApiOutcome.rateLimit ++ l)
      = (generate_explanation l).map (fun r => (r.1, r.2 + 60 * n)) := by
  induction n with
  | zero =>
    cases h : generate_explanation l with
    | none => simp [h]
    | some r => simp [h]
  | succ n ih =>
    rw [List.replicate_succ, List.cons_append]
    show (generate_explanation (List.replicate n ApiOutcome.rateLimit ++ l)).map
        (fun r => (r.1, r.2 + 60)) = _
    rw [ih, Option.map_map]
    congr 1

/-- C9: retry policy of the explanation generator.  After any number `n` of
rate-limit signals (no cap), each followed by a 60-time-unit sleep, a
successful call still yields its reply and a terminal failure
(authentication failure, timeout, any other API error) yields the empty
string, in both cases having slept exactly `60 * n`; an unbroken run of
rate limits keeps the loop running; and every non-rate-limit outcome ends
the loop immediately (rate limit is the only retried class). -/
theorem C9_retry_policy (n : Nat) :
    (∀ cs, generate_explanation
        (List.replicate n ApiOutcome.rateLimit ++ [ApiOutcome.success cs])
        = some (replyOf cs, 60 * n))
    ∧ generate_explanation (List.replicate n ApiOutcome.rateLimit ++ [ApiOutcome.authError])
        = some ("", 60 * n)
    ∧ generate_explanation (List.replicate n ApiOutcome.rateLimit ++ [ApiOutcome.timeout])
        = some ("", 60 * n)
    ∧ generate_explanation (List.replicate n ApiOutcome.rateLimit ++ [ApiOutcome.apiError])
        = some ("", 60 * n)
    ∧ generate_explanation (List.replicate n ApiOutcome.rateLimit) = none
    ∧ (∀ rest : List ApiOutcome,
        generate_explanation (ApiOutcome.authError :: rest) = some ("", 0)
        ∧ generate_explanation (ApiOutcome.timeout :: rest) = some ("", 0)
        ∧ generate_explanation (ApiOutcome.apiError :: rest) = some ("", 0)
        ∧ ∀ cs, generate_explanation (ApiOutcome.success cs :: rest)
            = some (replyOf cs, 0)) := by
  refine ⟨?_, ?_, ?_, ?_, ?_, ?_⟩
  · intro cs; simp [gen_rateLimit_leading, generate_explanation]
  · simp [gen_rateLimit_leading, generate_explanation]
  · simp [gen_rateLimit_leading, generate_explanation]
  · simp [gen_rateLimit_leading, generate_explanation]
  · have := gen_rateLimit_leading n []
    simpa [generate_explanation] using this
  · intro rest
    exact ⟨rfl, rfl, rfl, fun cs => rfl⟩

/-- C9, witness: two rate limits followed by an authentication failure
yield the empty string after 120 time units of sleeping. -/
theorem C9_witness :
    generate_explanation
        (List.replicate 2 ApiOutcome.rateLimit ++ [ApiOutcome.authError])
      = some ("", 60 * 2) := by
  exact (C9_retry_policy 2).2.1

/-- C10: `get_status` on a job whose status is `done` but whose result
document is missing from the output directory (no file there contains the
uid) answers status `done` with an empty-string explanation - no error, no
distinct inconsistency status. -/
theorem C10_done_missing_result (db : DB) (outDir : OutputFS) (uid : String)
    (now : Nat) (up : Upload)
    (hfind : db.uploads.find? (fun u => u.uid == uid) = some up)
    (hdone : up.status = STATUS_done)
    (hmiss : find_files (outDir.map Prod.fst) up.uid = []) :
    status_endpoint db outDir uid now
      = ⟨⟨some STATUS_done, up.filename, up.upload_time, Json.str ""⟩, up.finish_time⟩ := by
  simp [status_endpoint, hfind, prepare_response, hdone, hmiss]

/-- C10, witness: a concrete done job whose `u1.json` is absent. -/
theorem C10_witness :
    status_endpoint ⟨[], [⟨"u1", "deck.pptx", 0, some 5, "done", none⟩]⟩
        [("other.json", Json.arr [])] "u1" 7
      = ⟨⟨some STATUS_done, "deck.pptx", 0, Json.str ""⟩, some 5⟩ := by
  exact C10_done_missing_result ⟨[], [⟨"u1", "deck.pptx", 0, some 5, "done", none⟩]⟩
    [("other.json", Json.arr [])] "u1" 7 ⟨"u1", "deck.pptx", 0, some 5, "done", none⟩
    (by decide) rfl (by decide)

theorem max_by_upload_time_eq_none : ∀ l : List Upload,
    max_by_upload_time l = none → l = [] := by
  intro l
  cases l with
  | nil => intro _; rfl
  | cons a rest =>
    intro h
    simp only [max_by_upload_time] at h
    cases hr : max_by_upload_time rest <;> rw [hr] at h <;> simp at h

theorem max_by_upload_time_mem : ∀ (l : List Upload) (u : Upload),
    max_by_upload_time l = some u → u ∈ l := by
  intro l
  induction l with
  | nil => intro u h; simp [max_by_upload_time] at h
  | cons a rest ih =>
    intro u h
    simp only [max_by_upload_time] at h
    cases hr : max_by_upload_time rest with
    | none =>
      rw [hr] at h
      injection h with h
      subst h
      exact List.mem_cons_self _ _
    | some v =>
      rw [hr] at h
      by_cases hc : v.upload_time > a.upload_time
      · simp only [if_pos hc] at h
        injection h with h
        subst h
        exact List.mem_cons_of_mem _ (ih v hr)
      · simp only [if_neg hc] at h
        injection h with h
        subst h
        exact List.mem_cons_self _ _

theorem max_by_upload_time_ge : ∀ (l : List Upload) (u : Upload),
    max_by_upload_time l = some u → ∀ v ∈ l, v.upload_time ≤ u.upload_time := by
  intro l
  induction l with
  | nil => intro u h; simp [max_by_upload_time] at h
  | cons a rest ih =>
    intro u h v hv
    simp only [max_by_upload_time] at h
    cases hr : max_by_upload_time rest with
    | none =>
      have hrest : rest = [] := max_by_upload_time_eq_none rest hr
      subst hrest
      rw [hr] at h
      injection h with h
      subst h
      simp only [List.mem_singleton] at hv
      subst hv
      exact Nat.le_refl _
    | some w =>
      rw [hr] at h
      by_cases hc : w.upload_time > a.upload_time
      · simp only [if_pos hc] at h
        injection h with h
        subst h
        cases hv with
        | head => omega
        | tail _ hv' => exact ih w hr v hv'
      · simp only [if_neg hc] at h
        injection h with h
        subst h
        cases hv with
        | head => exact Nat.le_refl _
        | tail _ hv' =>
          have := ih w hr v hv'
          omega

/-- C8: `get_latest_upload` resolves the user by email and answers the
`not found` status when no user carries that email or no upload of that
user matches the filename; otherwise its response carries the status of a
matching upload whose `upload_time` is maximal among all matching uploads. -/
theorem C8_get_latest (db : DB) (outDir : OutputFS) (fn em : String) (now : Nat) :
    (db.users.find? (fun v => v.email == em) = none →
      (get_latest_upload db outDir fn em now).base.status = some STATUS_not_found)
    ∧ (∀ user, db.users.find? (fun v => v.email == em) = some user →
        (matching_uploads db user fn = [] →
          (get_latest_upload db outDir fn em now).base.status = some STATUS_not_found)
        ∧ (∀ latest, max_by_upload_time (matching_uploads db user fn) = some latest →
            latest ∈ matching_uploads db user fn
            ∧ (∀ v ∈ matching_uploads db user fn,
                v.upload_time ≤ latest.upload_time)
            ∧ (get_latest_upload db outDir fn em now).base.status
                = some latest.status)) := by
  constructor
  · intro h
    simp [get_latest_upload, h]
  · intro user hu
    constructor
    · intro hm
      simp [get_latest_upload, hu, hm, max_by_upload_time]
    · intro latest hl
      refine ⟨max_by_upload_time_mem _ latest hl,
        max_by_upload_time_ge _ latest hl, ?_⟩
      simp only [get_latest_upload, hu, hl]
      rfl

/-- Store for the C8 witness: one user owning two `deck.pptx` jobs uploaded
at times 3 and 9. -/
def c8_db : DB :=
  ⟨[⟨1, "a@b.c"⟩],
    [⟨"u1", "deck.pptx", 3, none, "pending", some 1⟩,
     ⟨"u2", "deck.pptx", 9, some 12, "done", some 1⟩]⟩

def c8_user : DBUser := ⟨1, "a@b.c"⟩

def c8_late : Upload := ⟨"u2", "deck.pptx", 9, some 12, "done", some 1⟩

/-- C8, witness: with two matching jobs the later one (time 9) is selected
and its status `done` is reported. -/
theorem C8_witness :
    c8_late ∈ matching_uploads c8_db c8_user "deck.pptx"
    ∧ (∀ v ∈ matching_uploads c8_db c8_user "deck.pptx",
        v.upload_time ≤ c8_late.upload_time)
    ∧ (get_latest_upload c8_db [] "deck.pptx" "a@b.c" 20).base.status
        = some c8_late.status := by
  exact ((C8_get_latest c8_db [] "deck.pptx" "a@b.c" 20).2 c8_user rfl).2 c8_late rfl

/-- Row invariant: status is one of the two lifecycle values, the finish
time is set exactly when the status is `done`, and any finish time is at or
after the creation time. -/
def JobRowInv (u : Upload) : Prop :=
  (u.status = STATUS_done ∨ u.status = STATUS_pending)
  ∧ (u.status = STATUS_done ↔ u.finish_time ≠ none)
  ∧ (∀ t, u.finish_time = some t → u.upload_time ≤ t)

/-- Store invariant threaded with the current clock value. -/
def StoreInv (now : Nat) (db : DB) : Prop :=
  ∀ u ∈ db.uploads, JobRowInv u ∧ u.upload_time ≤ now

theorem step_inv (db : DB) (e : JobEvent) (now : Nat)
    (hdb : StoreInv now db) (ht : now ≤ e.time) :
    StoreInv e.time (applyEvent db e) := by
  cases e with
  | create uid fn user t =>
    intro u hu
    simp only [applyEvent, List.mem_append, List.mem_singleton] at hu
    cases hu with
    | inl h =>
      obtain ⟨h1, h2⟩ := hdb u h
      exact ⟨h1, Nat.le_trans h2 ht⟩
    | inr h =>
      subst h
      refine ⟨⟨Or.inr rfl, ?_, ?_⟩, Nat.le_refl _⟩
      · simp [STATUS_pending, STATUS_done]
      · intro t' h'; cases h'
  | finish uid t =>
    intro u hu
    simp only [applyEvent, List.mem_map] at hu
    obtain ⟨v, hv, rfl⟩ := hu
    obtain ⟨⟨hst, hiff, hle⟩, hnow⟩ := hdb v hv
    unfold finishRow
    by_cases hc : (v.uid == uid && v.status == STATUS_pending) = true
    · simp only [if_pos hc]
      refine ⟨⟨Or.inl rfl, ?_, ?_⟩, ?_⟩
      · simp
      · intro t' h'
        injection h' with h'
        subst h'
        exact Nat.le_trans hnow ht
      · exact Nat.le_trans hnow ht
    · simp only [if_neg hc]
      exact ⟨⟨hst, hiff, hle⟩, Nat.le_trans hnow ht⟩

theorem run_inv : ∀ (es : List JobEvent) (db : DB) (now : Nat),
    StoreInv now db → TimeBounded now es = true →
    ∀ u ∈ (runEvents db es).uploads, JobRowInv u := by
  intro es
  induction es with
  | nil =>
    intro db now h _ u hu
    exact (h u hu).1
  | cons e rest ih =>
    intro db now h htb u hu
    simp only [TimeBounded, Bool.and_eq_true, decide_eq_true_eq] at htb
    exact ih (applyEvent db e) e.time (step_inv db e now h htb.1) htb.2 u hu

/-- C6: job lifecycle.  For the row-update operation applied by the worker,
a row is either left untouched or moves from `pending` to `done` gaining a
finish time (and a row already `done` is never changed again, so the
transition fires at most once and never backward); and in every store
reachable from a fresh database by insert/finish events under a monotone
clock, `finish_time` is set iff `status = done`, the status is one of
`pending`/`done`, and a `done` row has a finish time at or after its
creation time. -/
theorem C6_lifecycle :
    (∀ (uid : String) (t : Nat) (u : Upload),
        finishRow uid t u = u
        ∨ (u.status = STATUS_pending
            ∧ finishRow uid t u
                = { u with status := STATUS_done, finish_time := some t }))
    ∧ (∀ (uid : String) (t : Nat) (u : Upload),
        u.status = STATUS_done → finishRow uid t u = u)
    ∧ (∀ es : List JobEvent, TimeBounded 0 es = true →
        ∀ u ∈ (runEvents (database_module_init ⟨[], []⟩) es).uploads,
          (u.status = STATUS_done ↔ u.finish_time ≠ none)
          ∧ (u.status = STATUS_done ∨ u.status = STATUS_pending)
          ∧ (u.status = STATUS_done →
              ∃ t, u.finish_time = some t ∧ u.upload_time ≤ t)) := by
  refine ⟨?_, ?_, ?_⟩
  · intro uid t u
    by_cases hc : (u.uid == uid && u.status == STATUS_pending) = true
    · refine Or.inr ⟨?_, ?_⟩
      · have hc' := hc
        simp only [Bool.and_eq_true, beq_iff_eq] at hc'
        exact hc'.2
      · unfold finishRow
        rw [if_pos hc]
    · refine Or.inl ?_
      unfold finishRow
      rw [if_neg hc]
  · intro uid t u hdone
    unfold finishRow
    have hc : (u.uid == uid && u.status == STATUS_pending) = false := by
      simp [hdone, STATUS_done, STATUS_pending]
    simp [hc]
  · intro es htb u hu
    have hinit : StoreInv 0 (database_module_init ⟨[], []⟩) := by
      intro u hu
      simp [database_module_init] at hu
    obtain ⟨hst, hiff, hle⟩ := run_inv es (database_module_init ⟨[], []⟩) 0 hinit htb u hu
    refine ⟨hiff, hst, ?_⟩
    intro hdone
    have hft : u.finish_time ≠ none := hiff.mp hdone
    cases hft' : u.finish_time with
    | none => exact absurd hft' hft
    | some t => exact ⟨t, rfl, hle t hft'⟩

/-- C6, witness: the trace "create `u1` at time 3, worker finishes it at
time 7" yields the row `(u1, done, created 3, finished 7)`, which satisfies
every invariant of the claim. -/
theorem C6_witness :
    ((⟨"u1", "deck.pptx", 3, some 7, "done", none⟩ : Upload).status = STATUS_done
        ↔ (⟨"u1", "deck.pptx", 3, some 7, "done", none⟩ : Upload).finish_time ≠ none)
    ∧ ((⟨"u1", "deck.pptx", 3, some 7, "done", none⟩ : Upload).status = STATUS_done
        ∨ (⟨"u1", "deck.pptx", 3, some 7, "done", none⟩ : Upload).status = STATUS_pending)
    ∧ ((⟨"u1", "deck.pptx", 3, some 7, "done", none⟩ : Upload).status = STATUS_done →
        ∃ t, (⟨"u1", "deck.pptx", 3, some 7, "done", none⟩ : Upload).finish_time = some t
          ∧ (⟨"u1", "deck.pptx", 3, some 7, "done", none⟩ : Upload).upload_time ≤ t) := by
  exact C6_lifecycle.2.2
    [JobEvent.create "u1" "deck.pptx" none 3, JobEvent.finish "u1" 7]
    (by decide) ⟨"u1", "deck.pptx", 3, some 7, "done", none⟩ (by decide)
